import Mathlib

/-!
Shallow embedding of the Braniac quiz game (src/Braniac.py).

The program fetches multiple-choice trivia questions, lets the player answer
them one at a time (check_answer / update_question), and keeps a plain-text
leaderboard file of (name, score) lines (save_score / show_leaderboard /
submit_score).  The embedding below translates the score-keeping state
machine, the leaderboard file handling, and the request-parameter
construction of fetch_questions.  Tkinter widget layout is not modelled;
what is modelled of the UI is exactly the data each handler manipulates and
the screen decision taken by update_question.  The function html.unescape
is an external collaborator and is modelled as an arbitrary function
parameter, since no claim depends on the concrete entity table.
-/

/-! ### Python string primitives

The leaderboard code uses str.strip, str.split and int(...) from Python.
These are modelled on ASCII text (the leaderboard file the program itself
writes is ASCII-framed: names verbatim, a comma, and str(int)).
-/

/-- Whitespace characters removed by Python str.strip() (ASCII range). -/
def pyIsSpace (c : Char) : Bool :=
  c = ' ' || c = '\t' || c = '\n' || c = '\r' || c = '\x0b' || c = '\x0c'

/-- Python str.strip(): remove leading and trailing whitespace. -/
def pyStrip (cs : List Char) : List Char :=
  ((cs.dropWhile pyIsSpace).reverse.dropWhile pyIsSpace).reverse

/-- Python str.split(sep) for a one-character separator: splitting the empty
string yields one empty field, and every separator occurrence opens a new
field, so the result always has (number of separators + 1) fields. -/
def pySplit (sep : Char) : List Char → List (List Char)
  | [] => [[]]
  | c :: rest =>
    if c = sep then [] :: pySplit sep rest
    else
      match pySplit sep rest with
      | [] => [[c]]
      | g :: gs => (c :: g) :: gs

/-- Value of a digit run possibly containing single underscores between
digit groups, as accepted by Python int(); accumulator form. -/
def digitsCore : Nat → List Char → Option Nat
  | acc, [] => some acc
  | acc, c :: rest =>
    if c.isDigit then digitsCore (10 * acc + (c.toNat - 48)) rest
    else
      if c = '_' then
        match rest with
        | [] => none
        | d :: rest2 =>
          if d.isDigit then digitsCore (10 * acc + (d.toNat - 48)) rest2 else none
      else none

/-- Nonempty digit run (single underscores allowed between digits). -/
def digitsVal : List Char → Option Nat
  | [] => none
  | c :: rest => if c.isDigit then digitsCore (c.toNat - 48) rest else none

/-- Python int(str) on base-10 ASCII input: surrounding whitespace is
ignored, an optional single sign precedes the digits; none models the
ValueError raised on any other input. -/
def pyInt (cs : List Char) : Option Int :=
  match pyStrip cs with
  | [] => none
  | c :: rest =>
    if c = '+' then (digitsVal rest).map (fun n => (n : Int))
    else
      if c = '-' then (digitsVal rest).map (fun n => -(n : Int))
      else (digitsVal (c :: rest)).map (fun n => (n : Int))

/-! ### Leaderboard store (save_score, show_leaderboard, submit_score) -/

/-- One iteration of the read loop in show_leaderboard: strip the line,
skip it if empty, split on commas, keep it only when there are exactly two
fields, and parse the score with int(), substituting 0 on ValueError. -/
def parseLine (cs : List Char) : Option (String × Int) :=
  let line := pyStrip cs
  if line = [] then none
  else
    match pySplit ',' line with
    | [name, scoreStr] => some (String.mk name, (pyInt scoreStr).getD 0)
    | _ => none

/-- The list of (name, score) records show_leaderboard builds from the
leaderboard file contents: one candidate record per line. -/
def readScores (content : String) : List (String × Int) :=
  (pySplit '\n' content.data).filterMap parseLine

/-- save_score(name, score): append one line to the leaderboard file,
exactly the text written by file.write of the f-string. -/
def save_score (content name : String) (score : Int) : String :=
  content ++ name ++ "," ++ toString score ++ "\n"

/-- Insert a record into a list already sorted by descending score,
placing it after every record whose score is greater than or equal to its
own.  Iterated over the records in file order this computes exactly the
stable descending sort performed by list.sort(key score, reverse) in
show_leaderboard. -/
def insertScoreDesc (e : String × Int) : List (String × Int) → List (String × Int)
  | [] => [e]
  | x :: xs => if e.2 ≤ x.2 then x :: insertScoreDesc e xs else e :: x :: xs

/-- The scores.sort(key score, reverse) call of show_leaderboard: a stable
sort by descending score. -/
def sortScoresDesc (l : List (String × Int)) : List (String × Int) :=
  l.foldl (fun acc e => insertScoreDesc e acc) []

/-- The entries show_leaderboard displays, in display order: the parsed
records sorted by descending score, truncated to the first 10
(scores[:10] in the display loop). -/
def show_leaderboard (content : String) : List (String × Int) :=
  (sortScoresDesc (readScores content)).take 10

/-- submit_score(name): replace an empty or whitespace-only name by the
sentinel "Anonymous", then append the record with save_score. -/
def submit_score (content name : String) (score : Int) : String :=
  if pyStrip name.data = [] then save_score content "Anonymous" score
  else save_score content name score

/-! ### Quiz session state machine (check_answer, update_question) -/

/-- One fetched question record as used by the quiz code. -/
structure Question where
  question : String
  correct_answer : String
  incorrect_answers : List String
deriving DecidableEq

/-- The global quiz state: the fetched question list and the two mutable
counters current_question_index and score. -/
structure QuizState where
  questions : List Question
  current_question_index : Nat
  score : Nat
deriving DecidableEq

/-- check_answer(selected_option, correct_answer) as it executes while the
quiz screen is up, which covers the whole button wiring (a button exists
only while a question is on display, and then score_label is alive, so the
score_label.config call on line 377 succeeds): add 10 to the score when
the selected option equals the correct answer (string equality), then
advance current_question_index by one.  The question list is untouched.
The error path of line 377 at other states is modelled separately by
check_answer_attempt below, whose quiz-screen case reduces to this
function (lemma check_answer_attempt_ok). -/
def check_answer (s : QuizState) (selected_option correct_answer : String) : QuizState :=
  let new_score := if selected_option = correct_answer then s.score + 10 else s.score
  QuizState.mk s.questions (s.current_question_index + 1) new_score

/-- The two logical screens update_question can leave on display. -/
inductive Screen where
  | quiz : Screen
  | results : Screen
deriving DecidableEq

/-- The branch taken by update_question: once current_question_index has
reached the question count it calls end_screen (the results screen, which
destroys the answer buttons); otherwise it renders the current question on
the quiz screen. -/
def update_question_screen (s : QuizState) : Screen :=
  if s.questions.length ≤ s.current_question_index then Screen.results else Screen.quiz

/-- check_answer(selected_option, correct_answer) invoked at an arbitrary
session state, line by line.  Lines 375-376 update the global score.  Line
377 then calls score_label.config: while the quiz screen is up score_label
is alive and the call succeeds, but in a state whose screen is the results
screen, end_screen has destroyed every widget including score_label, so the
call raises TclError and the invocation aborts with the score mutation
already performed and line 378's index increment never reached.
Except.error carries the global state the propagating exception leaves
behind; Except.ok is the completed update of lines 375-378. -/
def check_answer_attempt (s : QuizState) (selected_option correct_answer : String) :
    Except QuizState QuizState :=
  let s1 := QuizState.mk s.questions s.current_question_index
    (if selected_option = correct_answer then s.score + 10 else s.score)
  match update_question_screen s with
  | Screen.quiz => Except.ok (QuizState.mk s1.questions (s1.current_question_index + 1) s1.score)
  | Screen.results => Except.error s1

/-- Play a list of choices from a state: each button press invokes
check_answer with the pressed option and the HTML-decoded correct answer of
the question on display, which is the one at current_question_index.  When
no question is on display there is no button, so nothing happens. -/
def runQuiz (unescape : String → String) (s : QuizState) : List String → QuizState
  | [] => s
  | choice :: rest =>
    match s.questions[s.current_question_index]? with
    | some q => runQuiz unescape (check_answer s choice (unescape q.correct_answer)) rest
    | none => runQuiz unescape s rest

/-- The session states the UI can reach: start_quiz resets the counters to
zero over the fetched (shuffled) question list, and each answer button —
which exists only while update_question has a question on display —
invokes check_answer with that question's decoded correct answer. -/
inductive Reachable (unescape : String → String) : QuizState → Prop where
  | start (qs : List Question) : Reachable unescape (QuizState.mk qs 0 0)
  | step (s : QuizState) (choice : String) (q : Question)
      (hq : s.questions[s.current_question_index]? = some q)
      (hs : Reachable unescape s) :
      Reachable unescape (check_answer s choice (unescape q.correct_answer))

/-! ### Question fetching (TOPICS, fetch_questions) -/

/-- The TOPICS dictionary: topic name to API category id, none for the
"Mixed" sentinel. -/
def TOPICS : List (String × Option Nat) :=
  [("Mixed", none),
   ("General Knowledge", some 9),
   ("Entertainment: Music", some 12),
   ("Science: Computers", some 18),
   ("History", some 23),
   ("Sports", some 21)]

/-- The request parameter dictionary sent to the trivia API.  The category
field is none when the "category" key is absent, and some v when the key is
present with value v. -/
structure ApiParams where
  amount : Nat
  difficulty : String
  type : String
  category : Option (Option Nat)
deriving DecidableEq

/-- The initial TRIVIA_API_PARAMETERS dictionary (no category key). -/
def TRIVIA_API_PARAMETERS : ApiParams :=
  ApiParams.mk 10 "medium" "multiple" none

/-- The parameter dictionary fetch_questions passes to requests.get: it
first stores TOPICS[selected_topic] under the "category" key of the shared
dictionary prev, then pops that key again when the topic is "Mixed".
A topic outside TOPICS raises KeyError, modelled as none. -/
def fetch_questions_params (prev : ApiParams) (selected_topic : String) : Option ApiParams :=
  match TOPICS.lookup selected_topic with
  | none => none
  | some catId =>
    if selected_topic = "Mixed" then
      some (ApiParams.mk prev.amount prev.difficulty prev.type none)
    else
      some (ApiParams.mk prev.amount prev.difficulty prev.type (some catId))

/-! ### Properties of the leaderboard sort -/
lemma insertScoreDesc_perm (e : String × Int) (l : List (String × Int)) :
    List.Perm (insertScoreDesc e l) (e :: l) := by
  induction l with
  | nil => exact List.Perm.refl _
  | cons x xs ih =>
    by_cases hc : e.2 ≤ x.2
    · simp only [insertScoreDesc, if_pos hc]
      exact (ih.cons x).trans (List.Perm.swap e x xs)
    · simp only [insertScoreDesc, if_neg hc]
      exact List.Perm.refl _

lemma pairwise_insertScoreDesc (e : String × Int) (l : List (String × Int))
    (h : l.Pairwise (fun a b => b.2 ≤ a.2)) :
    (insertScoreDesc e l).Pairwise (fun a b => b.2 ≤ a.2) := by
  induction l with
  | nil => simp [insertScoreDesc]
  | cons x xs ih =>
    rcases List.pairwise_cons.mp h with ⟨hx, hxs⟩
    by_cases hc : e.2 ≤ x.2
    · simp only [insertScoreDesc, if_pos hc]
      refine List.pairwise_cons.mpr ⟨?_, ih hxs⟩
      intro y hy
      rcases List.mem_cons.mp (((insertScoreDesc_perm e xs).mem_iff).mp hy) with hy | hy
      · subst hy
        exact hc
      · exact hx y hy
    · simp only [insertScoreDesc, if_neg hc]
      have hlt : x.2 < e.2 := lt_of_not_ge hc
      refine List.pairwise_cons.mpr ⟨?_, h⟩
      intro y hy
      rcases List.mem_cons.mp hy with hy | hy
      · subst hy
        exact le_of_lt hlt
      · exact le_trans (hx y hy) (le_of_lt hlt)

lemma filter_insertScoreDesc (e : String × Int) (p : Int) (l : List (String × Int))
    (h : l.Pairwise (fun a b => b.2 ≤ a.2)) :
    (insertScoreDesc e l).filter (fun x => x.2 == p)
      = l.filter (fun x => x.2 == p) ++ if e.2 == p then [e] else [] := by
  induction l with
  | nil =>
    cases hbe : (e.2 == p) <;> simp [insertScoreDesc, List.filter, hbe]
  | cons x xs ih =>
    rcases List.pairwise_cons.mp h with ⟨hx, hxs⟩
    by_cases hc : e.2 ≤ x.2
    · simp only [insertScoreDesc, if_pos hc]
      cases hpx : (x.2 == p) <;>
        simp [List.filter_cons, hpx, ih hxs]
    · have hlt : x.2 < e.2 := lt_of_not_ge hc
      simp only [insertScoreDesc, if_neg hc]
      cases hbe : (e.2 == p)
      · simp [List.filter_cons, hbe]
      · have hep : e.2 = p := beq_iff_eq.mp hbe
        have hnil : (x :: xs).filter (fun y => y.2 == p) = [] := by
          rw [List.filter_eq_nil_iff]
          intro y hy
          have hylt : y.2 < e.2 := by
            rcases List.mem_cons.mp hy with hy | hy
            · rw [hy]; exact hlt
            · exact lt_of_le_of_lt (hx y hy) hlt
          simp only [beq_iff_eq]
          omega
        simp [List.filter_cons, hbe, hnil, hep]

lemma sortScoresDesc_append_singleton (l : List (String × Int)) (e : String × Int) :
    sortScoresDesc (l ++ [e]) = insertScoreDesc e (sortScoresDesc l) := by
  simp [sortScoresDesc, List.foldl_append]

lemma sortScoresDesc_pairwise (l : List (String × Int)) :
    (sortScoresDesc l).Pairwise (fun a b => b.2 ≤ a.2) := by
  induction l using List.reverseRecOn with
  | nil => simp [sortScoresDesc]
  | append_singleton l e ih =>
    rw [sortScoresDesc_append_singleton]
    exact pairwise_insertScoreDesc e _ ih

lemma sortScoresDesc_perm (l : List (String × Int)) : List.Perm (sortScoresDesc l) l := by
  induction l using List.reverseRecOn with
  | nil => exact List.Perm.refl _
  | append_singleton l e ih =>
    rw [sortScoresDesc_append_singleton]
    exact ((insertScoreDesc_perm e _).trans (ih.cons e)).trans (List.perm_append_singleton e l).symm

lemma sortScoresDesc_filter (l : List (String × Int)) (p : Int) :
    (sortScoresDesc l).filter (fun x => x.2 == p) = l.filter (fun x => x.2 == p) := by
  induction l using List.reverseRecOn with
  | nil => rfl
  | append_singleton l e ih =>
    rw [sortScoresDesc_append_singleton,
      filter_insertScoreDesc e p _ (sortScoresDesc_pairwise l), ih, List.filter_append]
    cases hbe : (e.2 == p) <;> simp [List.filter, hbe]

lemma runQuiz_score (u : String → String) (choices : List String) :
    ∀ (qs : List Question) (i s0 : Nat), choices.length = qs.length - i → i ≤ qs.length →
    (runQuiz u (QuizState.mk qs i s0) choices).score
      = s0 + 10 * ((choices.zip ((qs.drop i).map (fun q => u q.correct_answer))).countP
          (fun pr => pr.1 == pr.2)) := by
  induction choices with
  | nil =>
    intro qs i s0 hlen hle
    simp [runQuiz]
  | cons c rest ih =>
    intro qs i s0 hlen hle
    have hi : i < qs.length := by
      simp only [List.length_cons] at hlen
      omega
    have hget : qs[i]? = some qs[i] := List.getElem?_eq_getElem hi
    have hdrop : qs.drop i = qs[i] :: qs.drop (i + 1) := List.drop_eq_getElem_cons hi
    simp only [runQuiz, hget]
    have hrec := ih qs (i + 1) (if c = u qs[i].correct_answer then s0 + 10 else s0)
      (by simp only [List.length_cons] at hlen; omega) (by omega)
    simp only [check_answer] at hrec ⊢
    rw [hrec, hdrop]
    simp only [List.map_cons, List.zip_cons_cons, List.countP_cons]
    by_cases hc : c = u qs[i].correct_answer <;> simp [hc, beq_iff_eq] <;> omega

lemma pyStrip_eq_nil_iff (cs : List Char) : pyStrip cs = [] ↔ ∀ c ∈ cs, pyIsSpace c := by
  unfold pyStrip
  rw [List.reverse_eq_nil_iff, List.dropWhile_eq_nil_iff]
  constructor
  · intro h c hc
    have hsplit2 : c ∈ cs.takeWhile pyIsSpace ++ cs.dropWhile pyIsSpace := by
      rw [List.takeWhile_append_dropWhile]
      exact hc
    rcases List.mem_append.mp hsplit2 with hm | hm
    · exact List.mem_takeWhile_imp hm
    · exact h c (List.mem_reverse.mpr hm)
  · intro h c hc
    exact h c (List.dropWhile_sublist pyIsSpace |>.subset (List.mem_reverse.mp hc))

lemma pySplit_append_sep (sep : Char) (line more : List Char) (h : sep ∉ line) :
    pySplit sep (line ++ sep :: more) = line :: pySplit sep more := by
  induction line with
  | nil => simp [pySplit]
  | cons c cs ih =>
    have hc : c ≠ sep := fun he => h (he ▸ List.mem_cons_self c cs)
    have hcs : sep ∉ cs := fun hm => h (List.mem_cons_of_mem c hm)
    simp [pySplit, hc, ih hcs]

lemma reachable_index_le (u : String → String) (s : QuizState) (h : Reachable u s) :
    s.current_question_index ≤ s.questions.length := by
  induction h with
  | start qs => exact Nat.zero_le _
  | step s choice q hq hs ih =>
    have hlt : s.current_question_index < s.questions.length := by
      by_contra hcon
      rw [List.getElem?_eq_none (by omega)] at hq
      exact Option.noConfusion hq
    simp only [check_answer]
    omega

lemma check_answer_attempt_ok (s : QuizState) (a b : String)
    (h : s.current_question_index < s.questions.length) :
    check_answer_attempt s a b = Except.ok (check_answer s a b) := by
  simp [check_answer_attempt, check_answer, update_question_screen, Nat.not_le.mpr h]

/-- Claim C1: for every quiz session, after the player has answered all N
questions with exactly K of the submitted choices equal to the respective
question's (decoded) correct answer, the final score equals 10 * K,
independent of the order in which the correct answers occur. -/
theorem quiz_score_ten_per_correct (u : String → String) (qs : List Question)
    (choices : List String) (K : Nat)
    (hlen : choices.length = qs.length)
    (hK : K = ((choices.zip (qs.map (fun q => u q.correct_answer))).countP
        (fun pr => pr.1 == pr.2))) :
    (runQuiz u (QuizState.mk qs 0 0) choices).score = 10 * K := by
  subst hK
  have h := runQuiz_score u choices qs 0 0 (by omega) (Nat.zero_le _)
  simpa using h

/-- Witness for C1: a two-question session answered with one correct and one
wrong choice scores 10 * 1. -/
theorem quiz_score_ten_per_correct_witness :
    (runQuiz id
        (QuizState.mk [Question.mk "q1" "A" ["B", "C", "D"], Question.mk "q2" "B" ["A", "C", "D"]] 0 0)
        ["A", "C"]).score = 10 * 1 :=
  quiz_score_ten_per_correct id
    [Question.mk "q1" "A" ["B", "C", "D"], Question.mk "q2" "B" ["A", "C", "D"]]
    ["A", "C"] 1 (by decide) (by decide)

/-- Claim C2: for every leaderboard file contents, the displayed board is
the first 10 entries of the stable descending-by-score sort of the parsed
records: the sorted list is descending, entries with equal scores keep
their appended (file) order, the sort loses and invents no record, and at
most 10 entries are shown. -/
theorem show_leaderboard_sorted_stable_top10 (content : String) :
    show_leaderboard content = (sortScoresDesc (readScores content)).take 10
    ∧ (sortScoresDesc (readScores content)).Pairwise (fun a b => b.2 ≤ a.2)
    ∧ (∀ p : Int, (sortScoresDesc (readScores content)).filter (fun x => x.2 == p)
        = (readScores content).filter (fun x => x.2 == p))
    ∧ List.Perm (sortScoresDesc (readScores content)) (readScores content)
    ∧ (show_leaderboard content).length ≤ 10 :=
  ⟨rfl, sortScoresDesc_pairwise _, fun p => sortScoresDesc_filter _ p, sortScoresDesc_perm _,
    List.length_take_le 10 _⟩

/-- Claim C4: round trip through the leaderboard store: appending
("Alice",30), ("Bob",50), ("Eve",30) to an empty file and reading back
yields exactly Bob 50, Alice 30, Eve 30. -/
theorem leaderboard_round_trip :
    show_leaderboard (save_score (save_score (save_score "" "Alice" 30) "Bob" 50) "Eve" 30)
      = [("Bob", 50), ("Alice", 30), ("Eve", 30)] := by decide

/-- Claim C5: in every reachable session state the question index is at
most the session length, an answer submission advances it by exactly 1
while leaving the question list unchanged, and once the index equals the
length the session is terminal: update_question hands over to the results
screen. -/
theorem reachable_session_index_invariant (u : String → String) (s : QuizState)
    (choice correct : String) (h : Reachable u s) :
    s.current_question_index ≤ s.questions.length
    ∧ (check_answer s choice correct).current_question_index = s.current_question_index + 1
    ∧ (check_answer s choice correct).questions = s.questions
    ∧ (s.current_question_index = s.questions.length →
        update_question_screen s = Screen.results) := by
  refine ⟨reachable_index_le u s h, rfl, rfl, ?_⟩
  intro heq
  simp [update_question_screen, heq]

/-- Witness for C5: the invariant instantiated at the freshly started empty
session, which is reachable by Reachable.start. -/
theorem reachable_session_index_invariant_witness :
    (QuizState.mk [] 0 0).current_question_index ≤ (QuizState.mk [] 0 0).questions.length
    ∧ (check_answer (QuizState.mk [] 0 0) "x" "y").current_question_index
        = (QuizState.mk [] 0 0).current_question_index + 1
    ∧ (check_answer (QuizState.mk [] 0 0) "x" "y").questions = (QuizState.mk [] 0 0).questions
    ∧ ((QuizState.mk [] 0 0).current_question_index = (QuizState.mk [] 0 0).questions.length →
        update_question_screen (QuizState.mk [] 0 0) = Screen.results) :=
  reachable_session_index_invariant id (QuizState.mk [] 0 0) "x" "y" (Reachable.start [])

/-- Claim C3: with a question on display (the one stored at
current_question_index), submitting a choice adds exactly 10 to the score
if and only if the choice string equals the HTML-decoded stored correct
answer (case-sensitive string equality, no dependence on option position),
otherwise leaves the score unchanged; it always advances the index by
exactly 1, and when the index then equals the question count
update_question switches to the results screen. -/
theorem submit_answer_spec (u : String → String) (s : QuizState) (q : Question) (choice : String)
    (hq : s.questions[s.current_question_index]? = some q) :
    s.current_question_index < s.questions.length
    ∧ ((check_answer s choice (u q.correct_answer)).score = s.score + 10
        ↔ choice = u q.correct_answer)
    ∧ (choice ≠ u q.correct_answer → (check_answer s choice (u q.correct_answer)).score = s.score)
    ∧ (check_answer s choice (u q.correct_answer)).current_question_index
        = s.current_question_index + 1
    ∧ ((check_answer s choice (u q.correct_answer)).current_question_index = s.questions.length →
        update_question_screen (check_answer s choice (u q.correct_answer)) = Screen.results) := by
  refine ⟨?_, ⟨?_, ?_⟩, ?_, rfl, ?_⟩
  · by_contra hcon
    rw [List.getElem?_eq_none (by omega)] at hq
    exact Option.noConfusion hq
  · intro hsc
    by_contra hne
    simp only [check_answer, if_neg hne] at hsc
    omega
  · intro he
    simp [check_answer, he]
  · intro hne
    simp [check_answer, hne]
  · intro hlen
    simp only [check_answer] at hlen
    simp [update_question_screen, check_answer, hlen]

/-- Witness for C3: a one-question in-progress session with the question
on display, answered correctly. -/
theorem submit_answer_spec_witness :
    (QuizState.mk [Question.mk "Q" "A" ["B", "C", "D"]] 0 0).current_question_index
        < (QuizState.mk [Question.mk "Q" "A" ["B", "C", "D"]] 0 0).questions.length
    ∧ ((check_answer (QuizState.mk [Question.mk "Q" "A" ["B", "C", "D"]] 0 0) "A"
          (id (Question.mk "Q" "A" ["B", "C", "D"]).correct_answer)).score = 0 + 10
        ↔ "A" = id (Question.mk "Q" "A" ["B", "C", "D"]).correct_answer)
    ∧ ("A" ≠ id (Question.mk "Q" "A" ["B", "C", "D"]).correct_answer →
        (check_answer (QuizState.mk [Question.mk "Q" "A" ["B", "C", "D"]] 0 0) "A"
          (id (Question.mk "Q" "A" ["B", "C", "D"]).correct_answer)).score = 0)
    ∧ (check_answer (QuizState.mk [Question.mk "Q" "A" ["B", "C", "D"]] 0 0) "A"
        (id (Question.mk "Q" "A" ["B", "C", "D"]).correct_answer)).current_question_index = 0 + 1
    ∧ ((check_answer (QuizState.mk [Question.mk "Q" "A" ["B", "C", "D"]] 0 0) "A"
          (id (Question.mk "Q" "A" ["B", "C", "D"]).correct_answer)).current_question_index = 1 →
        update_question_screen (check_answer (QuizState.mk [Question.mk "Q" "A" ["B", "C", "D"]] 0 0)
          "A" (id (Question.mk "Q" "A" ["B", "C", "D"]).correct_answer)) = Screen.results) :=
  submit_answer_spec id (QuizState.mk [Question.mk "Q" "A" ["B", "C", "D"]] 0 0)
    (Question.mk "Q" "A" ["B", "C", "D"]) "A" (by decide)

/-- Counterexample to claim C6 as stated: in a finished one-question
session (index 1 = question count, score 0) the results screen is up and
score_label is destroyed, so invoking check_answer with a matching choice
aborts in line 377 with TclError — and the abort is neither a rejection
that leaves the state alone nor a no-op: the propagated global state
carries score 10, mutated by line 376 before the raise (the index is still
1, line 378 was never reached). -/
theorem check_answer_after_finished_not_clean :
    check_answer_attempt (QuizState.mk [Question.mk "Q" "A" ["B", "C", "D"]] 1 0) "A" "A"
        = Except.error (QuizState.mk [Question.mk "Q" "A" ["B", "C", "D"]] 1 10)
    ∧ QuizState.mk [Question.mk "Q" "A" ["B", "C", "D"]] 1 10
        ≠ QuizState.mk [Question.mk "Q" "A" ["B", "C", "D"]] 1 0 := by
  refine ⟨rfl, ?_⟩
  decide

/-- Amended C6: invoking the answer-submission operation once the session
is Finished (current_question_index equals the question count, so the
results screen is up) never completes: the score_label.config call of line
377 raises TclError on the widget end_screen destroyed, and
current_question_index never advances.  But the abort is a clean rejection
only for a non-matching choice; a choice matching the correct answer has
already added 10 to the global score when the exception propagates. -/
theorem check_answer_after_finished_raises (s : QuizState) (choice correct : String)
    (h : s.current_question_index = s.questions.length) :
    update_question_screen s = Screen.results
    ∧ (choice = correct →
        check_answer_attempt s choice correct
          = Except.error (QuizState.mk s.questions s.current_question_index (s.score + 10)))
    ∧ (choice ≠ correct → check_answer_attempt s choice correct = Except.error s) := by
  have hres : update_question_screen s = Screen.results := by
    simp [update_question_screen, h]
  refine ⟨hres, ?_, ?_⟩
  · intro he
    simp [check_answer_attempt, hres, he]
  · intro hne
    simp [check_answer_attempt, hres, hne]

/-- Witness for the amended C6: the finished one-question session with
score 5, probed with a matching and with the same non-matching choice. -/
theorem check_answer_after_finished_raises_witness :
    update_question_screen (QuizState.mk [Question.mk "Q" "A" ["B", "C", "D"]] 1 5) = Screen.results
    ∧ ("A" = "A" →
        check_answer_attempt (QuizState.mk [Question.mk "Q" "A" ["B", "C", "D"]] 1 5) "A" "A"
          = Except.error (QuizState.mk [Question.mk "Q" "A" ["B", "C", "D"]] 1 (5 + 10)))
    ∧ ("A" ≠ "A" →
        check_answer_attempt (QuizState.mk [Question.mk "Q" "A" ["B", "C", "D"]] 1 5) "A" "A"
          = Except.error (QuizState.mk [Question.mk "Q" "A" ["B", "C", "D"]] 1 5)) :=
  check_answer_after_finished_raises (QuizState.mk [Question.mk "Q" "A" ["B", "C", "D"]] 1 5)
    "A" "A" (by decide)

/-- Claim C7: a leaderboard line that strips to a nonempty string and
splits on commas into exactly a name field and a score field whose score
fails integer parsing is read as (name, 0); the read is total, it never
aborts. -/
theorem parse_line_unparsable_score_zero (line name scoreStr : List Char)
    (hne : pyStrip line ≠ [])
    (hsplit : pySplit ',' (pyStrip line) = [name, scoreStr])
    (hbad : pyInt scoreStr = none) :
    parseLine line = some (String.mk name, 0) := by
  simp [parseLine, hne, hsplit, hbad]

/-- Witness for C7: the spec's example line Carl,notanumber parses as
(Carl, 0). -/
theorem parse_line_unparsable_score_zero_witness :
    parseLine ("Carl,notanumber".data) = some ("Carl", 0) :=
  parse_line_unparsable_score_zero ("Carl,notanumber".data) ("Carl".data) ("notanumber".data)
    (by decide) (by decide) (by decide)

/-- Claim C8: submit_score persists the sentinel name Anonymous exactly
when the entered name is empty or consists only of whitespace; any other
name is persisted verbatim, and submission always appends one record,
never rejecting the name. -/
theorem submit_score_name_sentinel (content name : String) (score : Int) :
    ((∀ c ∈ name.data, pyIsSpace c) →
      submit_score content name score = content ++ "Anonymous" ++ "," ++ toString score ++ "\n")
    ∧ (¬ (∀ c ∈ name.data, pyIsSpace c) →
      submit_score content name score = content ++ name ++ "," ++ toString score ++ "\n") := by
  constructor
  · intro h
    simp [submit_score, (pyStrip_eq_nil_iff name.data).mpr h, save_score]
  · intro h
    have hne : ¬ pyStrip name.data = [] := fun hn => h ((pyStrip_eq_nil_iff name.data).mp hn)
    simp [submit_score, hne, save_score]

/-- Witness for C8: a whitespace-only name is stored as Anonymous, a
nonblank name is stored verbatim. -/
theorem submit_score_name_sentinel_witness :
    submit_score "" "  " 30 = "" ++ "Anonymous" ++ "," ++ toString (30 : Int) ++ "\n"
    ∧ submit_score "" "Bob" 30 = "" ++ "Bob" ++ "," ++ toString (30 : Int) ++ "\n" :=
  ⟨(submit_score_name_sentinel "" "  " 30).1 (by decide),
   (submit_score_name_sentinel "" "Bob" 30).2 (by decide)⟩

/-- Claim C9: within the topic catalog, fetching for "Mixed" sends a
request dictionary with no category key at all, while fetching for any
other topic sends the category key set to that topic's mapped identifier
(which is a real identifier, never the Mixed sentinel). -/
theorem fetch_questions_category_param (prev : ApiParams) (topic : String) (catId : Option Nat)
    (h : TOPICS.lookup topic = some catId) :
    (topic = "Mixed" →
      fetch_questions_params prev topic
        = some (ApiParams.mk prev.amount prev.difficulty prev.type none))
    ∧ (topic ≠ "Mixed" →
      fetch_questions_params prev topic
          = some (ApiParams.mk prev.amount prev.difficulty prev.type (some catId))
        ∧ catId ≠ none) := by
  constructor
  · intro he
    subst he
    simp [fetch_questions_params, TOPICS, List.lookup]
  · intro hne
    refine ⟨by simp [fetch_questions_params, h, hne], ?_⟩
    simp only [TOPICS, List.lookup] at h
    repeat' split at h
    all_goals try (intro hc; rw [hc] at h; simp at h)
    all_goals simp_all [beq_iff_eq]

/-- Witness for C9: the Mixed request has no category key, the Sports
request carries category 21. -/
theorem fetch_questions_category_param_witness :
    fetch_questions_params TRIVIA_API_PARAMETERS "Mixed"
        = some (ApiParams.mk 10 "medium" "multiple" none)
    ∧ (fetch_questions_params TRIVIA_API_PARAMETERS "Sports"
          = some (ApiParams.mk 10 "medium" "multiple" (some (some 21)))
        ∧ (some 21 : Option Nat) ≠ none) :=
  ⟨(fetch_questions_category_param TRIVIA_API_PARAMETERS "Mixed" none (by decide)).1 rfl,
   (fetch_questions_category_param TRIVIA_API_PARAMETERS "Sports" (some 21) (by decide)).2
     (by decide)⟩

/-- Claim C10: a leaderboard line that is blank after stripping, or does
not split on commas into exactly two fields, is silently skipped: it
parses to no record at all, and a file beginning with such a line reads
exactly as the file without it, so the record can never reach the
displayed top 10. -/
theorem malformed_line_skipped (line : List Char) (rest : String)
    (hnl : '\n' ∉ line)
    (h : pyStrip line = [] ∨ (pySplit ',' (pyStrip line)).length ≠ 2) :
    parseLine line = none
    ∧ readScores (String.mk line ++ "\n" ++ rest) = readScores rest := by
  have hparse : parseLine line = none := by
    rcases h with h | h
    · simp [parseLine, h]
    · by_cases hne : pyStrip line = []
      · simp [parseLine, hne]
      · simp only [parseLine, if_neg hne]
        rcases hsp : pySplit ',' (pyStrip line) with _ | ⟨a, _ | ⟨b, _ | ⟨c, tl⟩⟩⟩
        · rfl
        · rfl
        · rw [hsp] at h
          simp at h
        · rfl
  refine ⟨hparse, ?_⟩
  have hdata : (String.mk line ++ "\n" ++ rest).data = line ++ '\n' :: rest.data := by
    simp [String.data_append]
  simp only [readScores, hdata, pySplit_append_sep '\n' line rest.data hnl,
    List.filterMap_cons, hparse]

/-- Witness for C10: the three-field line Alice,Bob,30 contributes no
record, and a file starting with it reads the same as the remainder. -/
theorem malformed_line_skipped_witness :
    parseLine ("Alice,Bob,30".data) = none
    ∧ readScores (String.mk ("Alice,Bob,30".data) ++ "\n" ++ "Dan,5\n")
        = readScores "Dan,5\n" :=
  malformed_line_skipped ("Alice,Bob,30".data) "Dan,5\n" (by decide) (by decide)
